import Mathlib

/-!
Verification development for the pinokio chat-moderation sidecar.

The program aggregates bursts of chat messages into "series", flushes them to
a final stream on author change or window expiry (driven by a deadline
scheduler), and escalates overdue merchant messages.  We embed the relevant
parts of `src/redis_client.py`, `src/producer.py` and `src/llm.py` shallowly:

* wall-clock times (Python floats from `time.time()`) are modelled as
  rationals `ℚ`; the arithmetic performed on them (`+`, `-`, `≤`, `int(...)`
  truncation) is exact on the inputs exercised here,
* Redis hashes holding one series per chat are modelled as an
  `Option Series` per chat (the fields are written and read back through
  lossless `str`/`float`/`int` conversions in the source, so we keep them
  typed),
* Redis streams are modelled as append-ordered lists of `(id, fields)`
  pairs with a monotone id counter (`XADD` appends, `XREVRANGE` reads the
  reversed list, `XDEL` filters by id),
* the scheduler sorted set (`sched_zset`) is an association list from
  chat id to deadline score (`ZADD` replaces the member's score, `ZREM`
  removes the member, `ZRANGEBYSCORE 0 now LIMIT 0 n` sorts by score,
  filters by the range and takes `n`),
* Python exceptions are made explicit with `Except`; a `try/except` block
  becomes a `match` that discards the error.
-/

namespace Pinokio

/-- Chat identifiers (Redis key template parameters). -/
abbrev ChatId := String

/-- An unflushed burst of messages from one author
(the aggregation hash `agg_hash` of `redis_client.py`). -/
structure Series where
  user_id : String
  messages_id : String
  username : String
  user_type : String
  text : String
  start_ts : ℚ
  last_ts : ℚ
  count : ℤ
deriving Repr, DecidableEq

/-- A flushed ("long") message on the final stream. -/
structure FinalMsg where
  user_id : String
  messages_id : String
  username : String
  user_type : String
  text : String
  start_ts : ℚ
  end_ts : ℚ
  count : ℤ
  type : String
deriving Repr, DecidableEq

/-- A raw ("short") inbound event on the per-chat raw stream. -/
structure RawMsg where
  user_id : String
  messages_id : String
  username : String
  user_type : String
  text : String
  timestamp : ℚ
  type : String
deriving Repr, DecidableEq

/-- The persistent state of the aggregator: per-chat series hash, the global
scheduler sorted set, the per-chat final and raw streams, the per-chat
configured window (`conf_hash`), and the stream-id generator. -/
structure AggState where
  series : ChatId → Option Series
  deadlines : List (ChatId × ℚ)
  finals : ChatId → List (ℕ × FinalMsg)
  raw : ChatId → List (ℕ × RawMsg)
  windows : ChatId → Option ℤ
  nextId : ℕ

namespace RedisClient

/-- `ZADD sched_zset {chat_id: ts}`: a sorted set holds each member once, so
adding replaces any previous score for `chat_id`. -/
def zadd (zs : List (ChatId × ℚ)) (chat_id : ChatId) (ts : ℚ) :
    List (ChatId × ℚ) :=
  (chat_id, ts) :: zs.filter (fun p => p.1 ≠ chat_id)

/-- `ZREM sched_zset chat_id`. -/
def zrem (zs : List (ChatId × ℚ)) (chat_id : ChatId) : List (ChatId × ℚ) :=
  zs.filter (fun p => p.1 ≠ chat_id)

/-- `ZSCORE sched_zset chat_id`. -/
def zscore (zs : List (ChatId × ℚ)) (chat_id : ChatId) : Option ℚ :=
  (zs.find? (fun p => p.1 = chat_id)).map (fun p => p.2)

/-- Insert one member into a score-sorted list (helper for `ZRANGEBYSCORE`). -/
def insertByScore (p : ChatId × ℚ) : List (ChatId × ℚ) → List (ChatId × ℚ)
  | [] => [p]
  | q :: rest => if p.2 ≤ q.2 then p :: q :: rest else q :: insertByScore p rest

/-- Sort a member list by ascending score. -/
def sortByScore (zs : List (ChatId × ℚ)) : List (ChatId × ℚ) :=
  zs.foldr insertByScore []

/-- `ZRANGEBYSCORE sched_zset lo hi LIMIT 0 num`. -/
def zrangebyscore (zs : List (ChatId × ℚ)) (lo hi : ℚ) (num : ℕ) :
    List ChatId :=
  ((((sortByScore zs).filter (fun p => lo ≤ p.2 ∧ p.2 ≤ hi)).map
    (fun p => p.1)).take num)

/-- `RedisClient._schedule_deadline`: `ZADD` the chat with its deadline. -/
def schedule_deadline (st : AggState) (chat_id : ChatId)
    (deadline_timestamp : ℚ) : AggState :=
  { st with deadlines := zadd st.deadlines chat_id deadline_timestamp }

/-- Overwrite the aggregation hash of one chat. -/
def setSeries (st : AggState) (chat_id : ChatId) (s : Option Series) :
    AggState :=
  { st with series := fun c => if c = chat_id then s else st.series c }

/-- `RedisClient.set_window`: store `window_s` in the chat's conf hash. -/
def set_window (st : AggState) (chat_id : ChatId) (seconds : ℤ) : AggState :=
  { st with windows := fun c => if c = chat_id then some seconds else st.windows c }

/-- `RedisClient.get_window`: the stored window, defaulting to
`window_seconds_default` (2 in `config_redis.yaml`). -/
def get_window (st : AggState) (chat_id : ChatId) (window_seconds_default : ℤ) :
    ℤ :=
  (st.windows chat_id).getD window_seconds_default

/-- `RedisClient._flush_series`: re-read the series; if absent return `None`
and change nothing; otherwise `XADD` a final `"long"` message carrying the
series fields with `end_ts = last_ts`, delete the aggregation hash and
`ZREM` the chat from the scheduler set, returning the new final stream id.
(The Python `current_time` argument only feeds defaults for absent hash
fields; the hash is only ever written with all fields present.) -/
def flush_series (st : AggState) (chat_id : ChatId) (current_time : ℚ) :
    Option ℕ × AggState :=
  match st.series chat_id with
  | none => (none, st)
  | some s =>
    let _ := current_time
    let final_message_data : FinalMsg :=
      { user_id := s.user_id
        messages_id := s.messages_id
        username := s.username
        user_type := s.user_type
        text := s.text
        start_ts := s.start_ts
        end_ts := s.last_ts
        count := s.count
        type := "long" }
    let final_message_id := st.nextId
    (some final_message_id,
      { st with
        finals := fun c =>
          if c = chat_id then st.finals chat_id ++ [(final_message_id, final_message_data)]
          else st.finals c
        series := fun c => if c = chat_id then none else st.series c
        deadlines := zrem st.deadlines chat_id
        nextId := final_message_id + 1 })

/-- `RedisClient.process_message`: the burst-fusion aggregator.  No series:
create one with `count = 1` and schedule `now + window`.  Same author within
the (inclusive) window: extend the series text with a `"\n"` separator
(skipped when the stored text is empty), bump `last_ts` and `count`, and
re-schedule.  Otherwise flush the old series and create a fresh one. -/
def process_message (st : AggState) (chat_id messages_id user_id username
    user_type text : String) (window_seconds : ℤ) (current_time : ℚ) :
    AggState :=
  match st.series chat_id with
  | none =>
    let series_data : Series :=
      { user_id := user_id
        messages_id := messages_id
        username := username
        user_type := user_type
        text := text
        start_ts := current_time
        last_ts := current_time
        count := 1 }
    schedule_deadline (setSeries st chat_id (some series_data)) chat_id
      (current_time + window_seconds)
  | some current_series =>
    if current_series.user_id = user_id ∧
        current_time - current_series.last_ts ≤ (window_seconds : ℚ) then
      let new_text :=
        if current_series.text = "" then text
        else current_series.text ++ "\n" ++ text
      let updated : Series :=
        { current_series with
          text := new_text
          last_ts := current_time
          count := current_series.count + 1 }
      schedule_deadline (setSeries st chat_id (some updated)) chat_id
        (current_time + window_seconds)
    else
      let st1 := (flush_series st chat_id current_time).2
      let new_series_data : Series :=
        { user_id := user_id
          messages_id := messages_id
          username := username
          user_type := user_type
          text := text
          start_ts := current_time
          last_ts := current_time
          count := 1 }
      schedule_deadline (setSeries st1 chat_id (some new_series_data)) chat_id
        (current_time + window_seconds)

/-- `RedisClient.scheduler_tick`: pop the chats whose deadline score lies in
`[0, now]` (at most `max_batch`, ascending by score) and flush each,
counting the successful flushes. -/
def scheduler_tick (st : AggState) (max_batch : ℕ) (current_time : ℚ) :
    ℕ × AggState :=
  let expired_chats := zrangebyscore st.deadlines 0 current_time max_batch
  expired_chats.foldl
    (fun acc chat_id =>
      let r := flush_series acc.2 chat_id current_time
      (acc.1 + (if r.1.isSome then 1 else 0), r.2))
    (0, st)

/-- `RedisClient.add_message`: `XADD` a `"short"` raw event. -/
def add_message (st : AggState) (chat_id messages_id user_id username
    user_type text : String) (timestamp : ℚ) : ℕ × AggState :=
  let message_data : RawMsg :=
    { user_id := user_id
      messages_id := messages_id
      username := username
      user_type := user_type
      text := text
      timestamp := timestamp
      type := "short" }
  (st.nextId,
    { st with
      raw := fun c =>
        if c = chat_id then st.raw chat_id ++ [(st.nextId, message_data)]
        else st.raw c
      nextId := st.nextId + 1 })

/-- `RedisClient.get_final_messages`: `XREVRANGE` of the final stream,
newest first, at most `count` entries. -/
def get_final_messages (st : AggState) (chat_id : ChatId) (count : ℕ) :
    List (ℕ × FinalMsg) :=
  (st.finals chat_id).reverse.take count

end RedisClient

/-! ## Python/JSON groundwork for `src/llm.py`

LLM replies are Python strings, modelled as `List Char`.  `json.loads` values
are modelled by `PyJson`; a Python `float` is carried as the exact rational
value of its decimal lexeme (the claims never compute with float values, only
inspect their type tag, so binary rounding is irrelevant and not modelled;
the non-standard `NaN/Infinity` constants accepted by Python's decoder are
likewise not modelled).  JSON `null` decodes to Python `None`, which we also
use for "absent": `dict.get` returns `None` both for an absent key and for a
stored `None`, which `dictGet` mirrors by returning `PyJson.null`. -/

/-- The left-brace character (spelled via its code point). -/
def lbrace : Char := Char.ofNat 123

/-- The right-brace character (spelled via its code point). -/
def rbrace : Char := Char.ofNat 125

/-- The backtick character (spelled via its code point). -/
def btick : Char := Char.ofNat 96

/-- The ASCII whitespace recognised by Python's `str.strip()` and by the
regex class `\s`: space, tab, newline, carriage return, vertical tab,
form feed. -/
def isPyWs (c : Char) : Bool :=
  c == ' ' || c == '\t' || c == '\n' || c == '\r' || c == '\x0b' || c == '\x0c'

/-- ASCII letters, the regex class `[a-zA-Z]`. -/
def isAsciiLetter (c : Char) : Bool :=
  ('a' ≤ c && c ≤ 'z') || ('A' ≤ c && c ≤ 'Z')

/-- `str.strip()` restricted to the given character class: drop matching
characters from both ends. -/
def stripWhileBoth (p : Char → Bool) (cs : List Char) : List Char :=
  ((cs.dropWhile p).reverse.dropWhile p).reverse

/-- Python `str.strip()` (ASCII fragment). -/
def pyStrip (cs : List Char) : List Char := stripWhileBoth isPyWs cs

/-- Python `str.lower()` (ASCII fragment). -/
def pyLower (cs : List Char) : List Char := cs.map Char.toLower

/-- Values produced by Python's `json.loads`. -/
inductive PyJson where
  | null
  | bool (b : Bool)
  | int (n : ℤ)
  | flt (val : ℚ)
  | str (s : String)
  | arr (elems : List PyJson)
  | obj (entries : List (String × PyJson))
deriving Repr, Inhabited

/-- Python `isinstance(x, int)`: `True` for `int` and for `bool`
(`bool` is a subclass of `int` in Python). -/
def isPyIntInstance : PyJson → Bool
  | .int _ => true
  | .bool _ => true
  | _ => false

/-- Python `x is None`. -/
def isPyNull : PyJson → Bool
  | .null => true
  | _ => false

/-- Python `d.get(key)` on a decoded JSON object: the stored value, or
`None` when the key is absent. -/
def dictGet (entries : List (String × PyJson)) (key : String) : PyJson :=
  match entries.find? (fun kv => kv.1 = key) with
  | some kv => kv.2
  | none => PyJson.null

/-- Python `{**d, key: v}` / dict insertion: replace the value at an
existing key in place, otherwise append the new key. -/
def dictSet (entries : List (String × PyJson)) (key : String) (v : PyJson) :
    List (String × PyJson) :=
  if entries.any (fun kv => kv.1 = key) then
    entries.map (fun kv => if kv.1 = key then (kv.1, v) else kv)
  else entries ++ [(key, v)]

/-- Collapse duplicate keys the way building a Python dict does: insertion
order of first occurrence, last value wins. -/
def dedupKeys (entries : List (String × PyJson)) : List (String × PyJson) :=
  entries.foldl (fun acc kv => dictSet acc kv.1 kv.2) []

/-! ### `json.loads`

A fuel-indexed recursive-descent parser for RFC-8259 JSON, mirroring
Python's decoder: a value followed by only whitespace; anything else is an
error (Python raises `json.JSONDecodeError`, carried in the `Except` error
channel).  The fuel only bounds nesting depth and is always sufficient at
`length + 2` because every recursive step first consumes a character. -/

/-- Skip JSON whitespace (space, tab, newline, carriage return). -/
def skipJsonWs (cs : List Char) : List Char :=
  cs.dropWhile (fun c => c == ' ' || c == '\t' || c == '\n' || c == '\r')

/-- Value of a hex digit, if any. -/
def hexVal (c : Char) : Option ℕ :=
  if '0' ≤ c && c ≤ '9' then some (c.toNat - 48)
  else if 'a' ≤ c && c ≤ 'f' then some (c.toNat - 87)
  else if 'A' ≤ c && c ≤ 'F' then some (c.toNat - 55)
  else none

/-- Numeric value of a digit string. -/
def digitsToNat (ds : List Char) : ℕ :=
  ds.foldl (fun a c => a * 10 + (c.toNat - 48)) 0

/-- Parse the body of a JSON string after the opening quote, handling the
escapes `\" \\ \/ \b \f \n \r \t \uXXXX`; returns the decoded characters
and the remaining input. -/
def parseStringBody : (fuel : ℕ) → List Char → Except String (List Char × List Char)
  | 0, _ => .error "fuel exhausted"
  | _, [] => .error "Unterminated string"
  | fuel + 1, c :: rest =>
    if c = '"' then .ok ([], rest)
    else if c = '\\' then
      match rest with
      | [] => .error "Unterminated string"
      | e :: rest2 =>
        if e = 'u' then
          match rest2 with
          | h1 :: h2 :: h3 :: h4 :: rest3 =>
            match hexVal h1, hexVal h2, hexVal h3, hexVal h4 with
            | some a, some b, some c2, some d =>
              let code := ((a * 16 + b) * 16 + c2) * 16 + d
              match parseStringBody fuel rest3 with
              | .ok (s, r) => .ok (Char.ofNat code :: s, r)
              | .error err => .error err
            | _, _, _, _ => .error "Invalid hex escape"
          | _ => .error "Invalid hex escape"
        else
          let ec : Option Char :=
            if e = '"' then some '"'
            else if e = '\\' then some '\\'
            else if e = '/' then some '/'
            else if e = 'b' then some '\x08'
            else if e = 'f' then some '\x0c'
            else if e = 'n' then some '\n'
            else if e = 'r' then some '\r'
            else if e = 't' then some '\t'
            else none
          match ec with
          | some c2 =>
            match parseStringBody fuel rest2 with
            | .ok (s, r) => .ok (c2 :: s, r)
            | .error err => .error err
          | none => .error "Invalid escape"
    else
      match parseStringBody fuel rest with
      | .ok (s, r) => .ok (c :: s, r)
      | .error err => .error err

/-- Parse a JSON number per the RFC grammar; integer lexemes (no fraction,
no exponent) decode to Python `int`, all others to `float`. -/
def parseNumber (cs : List Char) : Except String (PyJson × List Char) :=
  let signAndRest : Bool × List Char :=
    match cs with
    | c :: r => if c = '-' then (true, r) else (false, cs)
    | [] => (false, cs)
  let neg := signAndRest.1
  let cs1 := signAndRest.2
  match cs1 with
  | [] => .error "Expecting value"
  | c :: _ =>
    if ¬ c.isDigit then .error "Expecting value"
    else
      let ipRest : List Char × List Char :=
        if c = '0' then ([c], cs1.tail)
        else (cs1.takeWhile Char.isDigit, cs1.dropWhile Char.isDigit)
      let ipDigits := ipRest.1
      let r1 := ipRest.2
      let intPart : ℕ := digitsToNat ipDigits
      let fracParse : Option (Bool × List Char × List Char) :=
        match r1 with
        | c2 :: r2 =>
          if c2 = '.' then
            let fd := r2.takeWhile Char.isDigit
            if fd.isEmpty then none
            else some (true, fd, r2.dropWhile Char.isDigit)
          else some (false, [], r1)
        | [] => some (false, [], r1)
      match fracParse with
      | none => .error "Expecting value"
      | some (hasFrac, fracDigits, r2) =>
        let expParse : Option (Bool × ℤ × List Char) :=
          match r2 with
          | c3 :: r3 =>
            if c3 = 'e' ∨ c3 = 'E' then
              let signRest : Bool × List Char :=
                match r3 with
                | s :: r4 =>
                  if s = '-' then (true, r4)
                  else if s = '+' then (false, r4)
                  else (false, r3)
                | [] => (false, r3)
              let ed := signRest.2.takeWhile Char.isDigit
              if ed.isEmpty then none
              else
                let e : ℤ := (digitsToNat ed : ℤ)
                some (true, if signRest.1 then -e else e, signRest.2.dropWhile Char.isDigit)
            else some (false, 0, r2)
          | [] => some (false, 0, r2)
        match expParse with
        | none => .error "Expecting value"
        | some (hasExp, expVal, r3) =>
          if hasFrac ∨ hasExp then
            let mantissa : ℚ :=
              (intPart : ℚ) + (digitsToNat fracDigits : ℚ) / (10 : ℚ) ^ fracDigits.length
            let magnitude : ℚ := mantissa * (10 : ℚ) ^ expVal
            .ok (.flt (if neg then -magnitude else magnitude), r3)
          else
            .ok (.int (if neg then -(intPart : ℤ) else (intPart : ℤ)), r3)

mutual

/-- Parse one JSON value, returning it with the remaining input. -/
def parseValue : (fuel : ℕ) → List Char → Except String (PyJson × List Char)
  | 0, _ => .error "fuel exhausted"
  | fuel + 1, cs =>
    match skipJsonWs cs with
    | [] => .error "Expecting value"
    | c :: rest =>
      if c = 'n' then
        match rest with
        | 'u' :: 'l' :: 'l' :: r => .ok (.null, r)
        | _ => .error "Expecting value"
      else if c = 't' then
        match rest with
        | 'r' :: 'u' :: 'e' :: r => .ok (.bool true, r)
        | _ => .error "Expecting value"
      else if c = 'f' then
        match rest with
        | 'a' :: 'l' :: 's' :: 'e' :: r => .ok (.bool false, r)
        | _ => .error "Expecting value"
      else if c = '"' then
        match parseStringBody (rest.length + 1) rest with
        | .ok (s, r) => .ok (.str (String.mk s), r)
        | .error err => .error err
      else if c = '[' then
        match skipJsonWs rest with
        | ']' :: r => .ok (.arr [], r)
        | _ => match parseElems fuel rest with
          | .ok (vs, r) => .ok (.arr vs, r)
          | .error err => .error err
      else if c = lbrace then
        match skipJsonWs rest with
        | c2 :: r =>
          if c2 = rbrace then .ok (.obj [], r)
          else match parseMembers fuel rest with
            | .ok (kvs, r2) => .ok (.obj (dedupKeys kvs), r2)
            | .error err => .error err
        | [] => .error "Expecting property name"
      else if c = '-' ∨ c.isDigit then parseNumber (c :: rest)
      else .error "Expecting value"

/-- Parse the non-empty element list of a JSON array (after `[`). -/
def parseElems : (fuel : ℕ) → List Char → Except String (List PyJson × List Char)
  | 0, _ => .error "fuel exhausted"
  | fuel + 1, cs =>
    match parseValue fuel cs with
    | .error err => .error err
    | .ok (v, r) =>
      match skipJsonWs r with
      | ',' :: r2 =>
        match parseElems fuel r2 with
        | .ok (vs, r3) => .ok (v :: vs, r3)
        | .error err => .error err
      | ']' :: r2 => .ok ([v], r2)
      | _ => .error "Expecting comma"

/-- Parse the non-empty member list of a JSON object (after the opening
brace). -/
def parseMembers : (fuel : ℕ) → List Char → Except String (List (String × PyJson) × List Char)
  | 0, _ => .error "fuel exhausted"
  | fuel + 1, cs =>
    match skipJsonWs cs with
    | '"' :: r =>
      match parseStringBody (r.length + 1) r with
      | .error err => .error err
      | .ok (kcs, r1) =>
        match skipJsonWs r1 with
        | ':' :: r2 =>
          match parseValue fuel r2 with
          | .error err => .error err
          | .ok (v, r3) =>
            match skipJsonWs r3 with
            | ',' :: r4 =>
              match parseMembers fuel r4 with
              | .ok (kvs, r5) => .ok ((String.mk kcs, v) :: kvs, r5)
              | .error err => .error err
            | c :: r4 =>
              if c = rbrace then .ok ([(String.mk kcs, v)], r4)
              else .error "Expecting comma"
            | [] => .error "Expecting comma"
        | _ => .error "Expecting colon"
    | _ => .error "Expecting property name"

end

/-- Python `json.loads`: one JSON document, trailing whitespace only;
otherwise the `Extra data` error. -/
def json_loads (cs : List Char) : Except String PyJson :=
  match parseValue (cs.length + 2) cs with
  | .error err => .error err
  | .ok (v, rest) =>
    if (skipJsonWs rest).isEmpty then .ok v else .error "Extra data"

namespace LLM

/-- `re.search(r"\x7b.*\x7d", raw, re.DOTALL)` in `LLM.classify_text`:
with a greedy dot matching newlines, the leftmost-longest match runs from
the first left brace to the last right brace (a match exists exactly when
the first left brace precedes the last right brace). -/
def firstIdxOf (c : Char) : List Char → Option ℕ
  | [] => none
  | x :: r => if x = c then some 0 else (firstIdxOf c r).map (· + 1)

/-- Index of the last occurrence of a character. -/
def lastIdxOf (c : Char) (cs : List Char) : Option ℕ :=
  (firstIdxOf c cs.reverse).map (fun i => cs.length - 1 - i)

/-- The matched substring of the brace-extraction regex, if any. -/
def reSearchBraces (cs : List Char) : Option (List Char) :=
  match firstIdxOf lbrace cs, lastIdxOf rbrace cs with
  | some i, some j => if i < j then some ((cs.drop i).take (j - i + 1)) else none
  | _, _ => none

/-- The reply-parsing step of `LLM.classify_text` (`src/llm.py:85-91`):
extract the brace-delimited substring if the regex matches and
`json.loads` it, else `json.loads` the whole reply.  There is no
`try/except` here: a decode failure propagates to the caller. -/
def classify_parse_reply (raw_content : List Char) : Except String PyJson :=
  match reSearchBraces raw_content with
  | some json_str => json_loads json_str
  | none => json_loads raw_content

/-- `LLM.classify_text`, given the LLM reply content (the transport call
itself is outside the model).  A `None` content makes `re.search` raise
`TypeError`. -/
def classify_text (raw_content : Option (List Char)) : Except String PyJson :=
  match raw_content with
  | none => .error "TypeError: expected string or bytes-like object"
  | some cs => classify_parse_reply cs

/-- The `group(1)` of `re.match(r"^(three backticks)[a-zA-Z]*\s*([\s\S]*?)\s*(three backticks)$", content)`
on already-stripped input.  The match succeeds exactly when the content
starts with three backticks and the remainder (after those three) ends with
three backticks: the literal opener is anchored, `[a-zA-Z]*` and `\s*` are
free to match empty, the lazy group absorbs anything, and the anchored
closer fixes the last three characters.  The greedy `[a-zA-Z]*` then `\s*`
eat the maximal letter run and whitespace run (never a backtick, so the
closer survives), and the lazy group ends before the maximal whitespace run
preceding the closing backticks. -/
def fencedGroup (content : List Char) : Option (List Char) :=
  if content.take 3 = [btick, btick, btick] then
    let t := content.drop 3
    if t.reverse.take 3 = [btick, btick, btick] then
      let afterLang := (t.dropWhile isAsciiLetter).dropWhile isPyWs
      let body := afterLang.take (afterLang.length - 3)
      some (body.reverse.dropWhile isPyWs).reverse
    else none
  else none

/-- `LLM._parse_llm_json` (`src/llm.py:152-187`): `None` input gives
`None`; strip; empty gives `None`; unwrap a fenced code block; strip
backticks and whitespace; the literals `null`/`none` (case-insensitive)
give `None`; finally `json.loads` inside `try/except`, any decode error
giving `None`.  The `Except` layer records that no exception escapes. -/
def parse_llm_json (raw_content : Option (List Char)) :
    Except String (Option PyJson) :=
  match raw_content with
  | none => .ok none
  | some raw =>
    let content := pyStrip raw
    if content.isEmpty then .ok none
    else
      let content :=
        match fencedGroup content with
        | some group1 => pyStrip group1
        | none => content
      let content := pyStrip (stripWhileBoth (fun c => c == btick) content)
      if pyLower content = "null".toList ∨ pyLower content = "none".toList then
        .ok none
      else
        match json_loads content with
        | .ok v => .ok (some v)
        | .error _ => .ok none

end LLM

/-! ## The producer (`src/producer.py`)

The ingress router, the LLM matching loop, and the escalation monitor's
reminder branch.  Effectful collaborators appear as explicit inputs: the
wall clock, the working-hours gate `should_process_message_by_time` (whose
datetime parsing is outside the claims; only its boolean result matters
here), the raw LLM reply contents, and the outbound HTTP outcome.  A Python
exception escaping a handler is a `PResult.raised` carrying the state as
mutated up to the raise point (in-memory and Redis mutations persist across
an exception). -/

namespace Producer

/-- `XDEL` on a raw stream. -/
def xdel_raw (st : AggState) (chat_id : ChatId) (id : ℕ) : AggState :=
  { st with raw := fun c =>
      if c = chat_id then (st.raw chat_id).filter (fun p => p.1 ≠ id)
      else st.raw c }

/-- `XDEL` on a final stream. -/
def xdel_final (st : AggState) (chat_id : ChatId) (id : ℕ) : AggState :=
  { st with finals := fun c =>
      if c = chat_id then (st.finals chat_id).filter (fun p => p.1 ≠ id)
      else st.finals c }

/-- `XDEL` on a final stream with an id that arrived as a Python `int`
(from the LLM). -/
def xdel_final_int (st : AggState) (chat_id : ChatId) (n : ℤ) : AggState :=
  { st with finals := fun c =>
      if c = chat_id then (st.finals chat_id).filter (fun p => (p.1 : ℤ) ≠ n)
      else st.finals c }

/-- The entries of `ProducerPinokIO._get_merchant_messages`: the fields it
copies out of the newest 50 final messages of merchant type. -/
structure MerchantMsg where
  chat_id : String
  messages_id : String
  user_id : String
  username : String
  text : String
  end_ts : ℚ
  start_ts : ℚ
  redis_stream_id : ℕ
deriving Repr, DecidableEq

/-- `ProducerPinokIO._get_merchant_messages`. -/
def get_merchant_messages (st : AggState) (chat_id : ChatId) :
    List MerchantMsg :=
  (RedisClient.get_final_messages st chat_id 50).filterMap (fun p =>
    if p.2.user_type = "merchant" then
      some { chat_id := chat_id
             messages_id := p.2.messages_id
             user_id := p.2.user_id
             username := p.2.username
             text := p.2.text
             end_ts := p.2.end_ts
             start_ts := p.2.start_ts
             redis_stream_id := p.1 }
    else none)

/-- The retry note prepended to the user prompt in
`LLM.match_answer_to_question`. -/
def failNote : String := "Last attempt failed. Try again:\n\n"

/-- The initial user prompt of `LLM.match_answer_to_question`. -/
def mk_user_msg (messages : List MerchantMsg) (answer : String) : String :=
  let candidates_str := String.intercalate "\n"
    (messages.map (fun m => toString m.redis_stream_id ++ ": merchant: " ++ m.text))
  let answer_str := "PP: " ++ answer
  "Candidates:\n" ++ candidates_str ++ "\n\n" ++ "Answer:\n" ++ answer_str ++
    "\n\n" ++ "Return strict JSON only."

/-- The attempt loop of `LLM.match_answer_to_question` (`src/llm.py:124-150`),
instrumented with the list of user prompts actually sent.  Each iteration
prepends the failure note when it is a retry, sends `user_msg`, parses the
reply; a parsed dict whose `matched_message_id` is `None` or an `int`
(Python `isinstance`, so `bool` qualifies) is returned at once; a dict with
a wrongly-typed id updates the fallback value (id forced to `None`) and
retries; anything else retries with the fallback unchanged. -/
def match_attempts (replies : ℕ → Option (List Char)) :
    (remaining attempt : ℕ) → (user_msg : String) → (last_parsed : PyJson) →
    Except String (PyJson × List String)
  | 0, _, _, last_parsed => .ok (last_parsed, [])
  | remaining + 1, attempt, user_msg, last_parsed =>
    let user_msg := if 0 < attempt then failNote ++ user_msg else user_msg
    match LLM.parse_llm_json (replies attempt) with
    | .error e => .error e
    | .ok parsed_any =>
      match parsed_any with
      | some (.obj entries) =>
        let matched := dictGet entries "matched_message_id"
        if isPyNull matched || isPyIntInstance matched then
          .ok (.obj entries, [user_msg])
        else
          match match_attempts replies remaining (attempt + 1) user_msg
              (.obj (dictSet entries "matched_message_id" .null)) with
          | .ok (r, prompts) => .ok (r, user_msg :: prompts)
          | .error e => .error e
      | _ =>
        match match_attempts replies remaining (attempt + 1) user_msg last_parsed with
        | .ok (r, prompts) => .ok (r, user_msg :: prompts)
        | .error e => .error e

/-- `LLM.match_answer_to_question`: up to `max_attempts = 3` LLM calls,
with fallback `\x7b"matched_message_id": None\x7d`. -/
def match_answer_to_question (replies : ℕ → Option (List Char))
    (messages : List MerchantMsg) (answer : String) :
    Except String (PyJson × List String) :=
  match_attempts replies 3 0 (mk_user_msg messages answer)
    (.obj [("matched_message_id", PyJson.null)])

/-- `ProducerPinokIO._append_to_last_long_for_user`: scan the newest 100
final messages; at the first merchant entry of this user, append a combined
record (newline-joined text, newline skipped when the stored text is empty,
`start_ts` kept, `end_ts = now`, `count + 1`) and delete the old entry. -/
def append_to_last_long_for_user (st : AggState)
    (chat_id user_id username text : String) (now : ℚ) :
    Option ℕ × AggState :=
  let final_messages := RedisClient.get_final_messages st chat_id 100
  match final_messages.find? (fun p =>
      p.2.user_type = "merchant" ∧ p.2.user_id = user_id) with
  | none => (none, st)
  | some hit =>
    let redis_stream_id := hit.1
    let fields := hit.2
    let existing_text := fields.text
    let new_text := if existing_text = "" then text
      else existing_text ++ "\n" ++ text
    let last_ts := now
    let new_count := fields.count + 1
    let new_entry : FinalMsg :=
      { user_id := user_id
        messages_id := fields.messages_id
        username := if username = "" then fields.username else username
        user_type := "merchant"
        text := new_text
        start_ts := fields.start_ts
        end_ts := last_ts
        count := new_count
        type := "long" }
    let new_id := st.nextId
    let st1 : AggState :=
      { st with
        finals := fun c =>
          if c = chat_id then st.finals chat_id ++ [(new_id, new_entry)]
          else st.finals c
        nextId := new_id + 1 }
    (some new_id, xdel_final st1 chat_id redis_stream_id)

/-- `ProducerPinokIO.process_message_if_reply_exist`: drop the PP raw event,
then delete the final entry whose `messages_id` equals the parent id
(scanning the newest 100), if present. -/
def process_message_if_reply_exist (st : AggState) (chat_id : ChatId)
    (redis_message_id : ℕ) (parent_message_id : String) : AggState :=
  let st := xdel_raw st chat_id redis_message_id
  let final_messages := RedisClient.get_final_messages st chat_id 100
  match final_messages.find? (fun p => p.2.messages_id = parent_message_id) with
  | some hit => xdel_final st chat_id hit.1
  | none => st

/-- `ProducerPinokIO.process_message_with_pp_response`: drop the PP raw
event; with no merchant finals, stop; otherwise ask the LLM for a match and
delete the matched final.  A `bool` match id (which passes the `isinstance`
check) reaches `XDEL` and raises there; the first component carries the
escaped exception, if any. -/
def process_message_with_pp_response (replies : ℕ → Option (List Char))
    (st : AggState) (chat_id : ChatId) (redis_message_id : ℕ)
    (username text : String) : Option String × AggState :=
  let _ := username
  let st := xdel_raw st chat_id redis_message_id
  let current_merchant_messages := get_merchant_messages st chat_id
  if current_merchant_messages.isEmpty then (none, st)
  else
    match match_answer_to_question replies current_merchant_messages text with
    | .error e => (some e, st)
    | .ok (outcome, _) =>
      let matched_local_id :=
        match outcome with
        | .obj entries => dictGet entries "matched_message_id"
        | _ => PyJson.null
      match matched_local_id with
      | .null => (none, st)
      | .int n => (none, xdel_final_int st chat_id n)
      | _ => (some "ResponseError: Invalid stream ID", st)

/-- The silencer sub-config of a chat (`config_chats.yaml`). -/
structure Silencer where
  enabled : Bool
  silence_timeout : ℤ
  output_chat_id : String
deriving Repr, DecidableEq

/-- The pinger sub-config of a chat (`config_chats.yaml`). -/
structure Pinger where
  whitelist : List String
  bot_enabled : Bool
  message_timeout : ℤ
  redis_buffer_window : Option ℤ
  output_chat_id : String
deriving Repr, DecidableEq

/-- A chat's entry in `CONFIG_CHATS`. -/
structure ChatCfg where
  input_chat_name : String
  pinger : Pinger
  silencer : Silencer
deriving Repr, DecidableEq

/-- The producer's full state: the Redis state, the in-memory
`last_silence_notification` map, and the set of running workers. -/
structure PState where
  agg : AggState
  last_silence_notification : ChatId → Option ℚ
  workers : ChatId → Bool

/-- The fields of `IncomingFromMsRequest` read by the ingress router. -/
structure IncomingMsg where
  messages_id : String
  parent_message_id : Option String
  user_id : String
  username : Option String
  date : String
  text : Option String
  change_id : Option String
  chat_id : String
deriving Repr, DecidableEq

/-- Explicit inputs standing for the router's effectful collaborators. -/
structure Env where
  now : ℚ
  should_process : Bool
  classify_reply : Option (List Char)
  match_replies : ℕ → Option (List Char)

/-- The JSON body returned by `process_incoming_message`. -/
structure Response where
  status : String
  reason : Option String
  message_id : Option ℕ
deriving Repr, DecidableEq

/-- Outcome of one ingress call: a returned JSON body, or an escaped
exception (HTTP 5xx). -/
inductive PResult where
  | ok (resp : Response)
  | raised (err : String)
deriving Repr, DecidableEq

/-- Python `x == 1` for a decoded JSON value (`need_response.get("class") == 1`):
`1 == 1`, `True == 1` and `1.0 == 1` hold; everything else compares
unequal. -/
def pyEqOne : PyJson → Bool
  | .int n => n = 1
  | .bool b => b
  | .flt q => q = 1
  | _ => false

/-- `ProducerPinokIO._ensure_worker_for_chat`: push the chat's configured
aggregation window (default 20) into the conf hash, then start the worker
if it is not running. -/
def ensure_worker_for_chat (cfg : ChatCfg) (st : PState) (chat_id : ChatId) :
    PState :=
  let window_cfg := cfg.pinger.redis_buffer_window.getD 20
  let st := { st with agg := RedisClient.set_window st.agg chat_id window_cfg }
  if st.workers chat_id then st
  else { st with workers := fun c => if c = chat_id then true else st.workers c }

/-- The merchant classification tail of `process_incoming_message`
(`src/producer.py:123-136`): try `append_to_last_long`; otherwise classify
the text; `class = 1` enqueues the raw event, anything else is ignored.
`classify_text` raising, or `.get` on a non-dict reply, escapes the
handler. -/
def merchant_classify_path (env : Env)
    (chat_id messages_id user_id username text : String) (st : PState) :
    PResult × PState :=
  let ar := append_to_last_long_for_user st.agg chat_id user_id username text
    env.now
  match ar.1 with
  | some appended_id =>
    (.ok { status := "in processing", reason := none, message_id := some appended_id },
      { st with agg := ar.2 })
  | none =>
    match LLM.classify_text env.classify_reply with
    | .error e => (.raised e, st)
    | .ok need_response =>
      match need_response with
      | .obj entries =>
        if pyEqOne (dictGet entries "class") then
          let r := RedisClient.add_message st.agg chat_id messages_id user_id
            username "merchant" text env.now
          (.ok { status := "in processing", reason := none, message_id := some r.1 },
            { st with agg := r.2 })
        else
          (.ok { status := "ignored", reason := some "no_response_needed", message_id := none },
            st)
      | _ => (.raised "AttributeError: no attribute get", st)

/-- The merchant branch of `process_incoming_message`
(`src/producer.py:112-136`): an event continuing the active series of the
same user goes straight to the raw stream, everything else to
`merchant_classify_path`. -/
def merchant_path (env : Env)
    (chat_id messages_id user_id username text : String) (st : PState) :
    PResult × PState :=
  match st.agg.series chat_id with
  | some active_series =>
    if active_series.user_id = user_id then
      let r := RedisClient.add_message st.agg chat_id messages_id user_id
        username "merchant" text env.now
      (.ok { status := "in processing", reason := none, message_id := some r.1 },
        { st with agg := r.2 })
    else merchant_classify_path env chat_id messages_id user_id username text st
  | none => merchant_classify_path env chat_id messages_id user_id username text st

/-- The PP branch of `process_incoming_message` (`src/producer.py:137-145`):
enqueue the raw event, then resolve it against the final stream either via
the explicit parent id or via the LLM matcher. -/
def pp_path (env : Env) (parent_message_id : Option String)
    (chat_id messages_id user_id username text : String) (st : PState) :
    PResult × PState :=
  let r := RedisClient.add_message st.agg chat_id messages_id user_id username
    "pp" text env.now
  let redis_message_id := r.1
  match parent_message_id with
  | some parent =>
    let agg := process_message_if_reply_exist r.2 chat_id redis_message_id parent
    (.ok { status := "in processing", reason := none, message_id := some redis_message_id },
      { st with agg := agg })
  | none =>
    let pr := process_message_with_pp_response env.match_replies r.2 chat_id
      redis_message_id username text
    match pr.1 with
    | some e => (.raised e, { st with agg := pr.2 })
    | none =>
      (.ok { status := "in processing", reason := none, message_id := some redis_message_id },
        { st with agg := pr.2 })

/-- `ProducerPinokIO.process_incoming_message` (`src/producer.py:38-145`):
admission checks in order (chat known, working hours, not an edit), then
the silence-clock refresh, worker setup, user-type classification and the
merchant/PP processing paths (hoisted above as `merchant_path`/`pp_path`). -/
def process_incoming_message (CONFIG_CHATS : ChatId → Option ChatCfg)
    (DEFAULT_USER_ID_BOT : String) (env : Env) (st : PState)
    (payload : IncomingMsg) : PResult × PState :=
  let chat_id := payload.chat_id
  match CONFIG_CHATS chat_id with
  | none =>
    (.ok { status := "ignored", reason := some "chat_not_found", message_id := none }, st)
  | some cfg =>
    if env.should_process = false then
      (.ok { status := "blocked", reason := some "time_blocked", message_id := none }, st)
    else if payload.change_id.isSome then
      (.ok { status := "ignored", reason := some "change message", message_id := none }, st)
    else
      let st :=
        if cfg.silencer.enabled then
          { st with last_silence_notification := fun c =>
              if c = chat_id then some env.now else st.last_silence_notification c }
        else st
      let st := ensure_worker_for_chat cfg st chat_id
      let messages_id := payload.messages_id
      let user_id := payload.user_id
      let username :=
        match payload.username with
        | some u => if u = "" then "unknown" else u
        | none => "unknown"
      let text := (payload.text).getD ""
      let whitelist := cfg.pinger.whitelist
      let bot_enabled := cfg.pinger.bot_enabled
      if ("@" ++ username) ∈ whitelist then
        pp_path env payload.parent_message_id chat_id messages_id user_id
          username text st
      else if user_id = DEFAULT_USER_ID_BOT then
        if bot_enabled = false then
          (.ok { status := "ignored", reason := some "bot_disabled", message_id := none }, st)
        else
          pp_path env payload.parent_message_id chat_id messages_id user_id
            username text st
      else merchant_path env chat_id messages_id user_id username text st

/-- Python `int(...)` on a float: truncation toward zero. -/
def pyTrunc (q : ℚ) : ℤ := if 0 ≤ q then ⌊q⌋ else ⌈q⌉

/-- The final-stream effect of `ProducerPinokIO.send_message`
(`src/producer.py:219-272`): the outbound HTTP call sits in a
`try/except` whose handler only logs, and the `XDEL` of the reminded
message follows outside it, so the deletion happens whether or not the
call raised.  (The guard `if redis_stream_id:` only protects against a
missing key; `_get_merchant_messages` always fills it.) -/
def send_message (finals : List (ℕ × FinalMsg)) (redis_stream_id : ℕ)
    (http_result : Except String Unit) : List (ℕ × FinalMsg) :=
  match http_result with
  | .ok _ => finals.filter (fun p => p.1 ≠ redis_stream_id)
  | .error _ => finals.filter (fun p => p.1 ≠ redis_stream_id)

/-- The reminder branch of `ProducerPinokIO._check_pending_messages`
(`src/producer.py:476-485`) for one chat: over the merchant messages among
the newest 50 finals, compute `age_seconds = int(now - end_ts)` and, when
it exceeds `message_timeout`, send the reminder and delete the message.
Returns the final stream after the pass and the ids reminded about. -/
def check_pending_reminders (finals : List (ℕ × FinalMsg)) (current_time : ℚ)
    (message_timeout : ℤ) (http : ℕ → Except String Unit) :
    List (ℕ × FinalMsg) × List ℕ :=
  let merchant_messages := (finals.reverse.take 50).filter
    (fun p => p.2.user_type = "merchant")
  merchant_messages.foldl
    (fun acc p =>
      let end_ts := p.2.end_ts
      let age_seconds := pyTrunc (current_time - end_ts)
      if age_seconds > message_timeout then
        (send_message acc.1 p.1 (http p.1), acc.2 ++ [p.1])
      else acc)
    (finals, [])

end Producer

/-! ## The scheduler/series coupling invariant (spec §3 invariant 2) -/

/-- For a fixed window `w` and chat `c`: when a series is active, the
scheduler set holds exactly one entry for `c`, with a deadline between
`last_ts` and `last_ts + w`; when no series is active, it holds none. -/
def DeadlineInv (w : ℤ) (c : ChatId) (st : AggState) : Prop :=
  (∀ s, st.series c = some s →
    ∃ t, st.deadlines.filter (fun p => p.1 = c) = [(c, t)] ∧
      s.last_ts ≤ t ∧ t ≤ s.last_ts + w) ∧
  (st.series c = none → st.deadlines.filter (fun p => p.1 = c) = [])

/-! ## Concrete sample data (used to instantiate the theorems) -/

/-- The empty store. -/
def emptyAgg : AggState :=
  { series := fun _ => none
    deadlines := []
    finals := fun _ => []
    raw := fun _ => []
    windows := fun _ => none
    nextId := 0 }

/-- A sample active series. -/
def s0 : Series :=
  { user_id := "u1"
    messages_id := "m1"
    username := "alice"
    user_type := "merchant"
    text := "hello"
    start_ts := 10
    last_ts := 10
    count := 1 }

/-- A store with one active series for `"chat1"` and its deadline. -/
def st0 : AggState :=
  { emptyAgg with
    series := fun c => if c = "chat1" then some s0 else none
    deadlines := [("chat1", 12)] }

/-- A sample merchant final message with empty text. -/
def fEmptyText : FinalMsg :=
  { user_id := "u7"
    messages_id := "m7"
    username := "bob"
    user_type := "merchant"
    text := ""
    start_ts := 1
    end_ts := 2
    count := 1
    type := "long" }

/-- A store whose `"chat7"` final stream holds `fEmptyText` under id 0. -/
def st7 : AggState :=
  { emptyAgg with
    finals := fun c => if c = "chat7" then [(0, fEmptyText)] else []
    nextId := 1 }

/-- A sample merchant final message that has been pending since time 0. -/
def fOld : FinalMsg :=
  { user_id := "u4"
    messages_id := "m4"
    username := "carol"
    user_type := "merchant"
    text := "when is the payment due?"
    start_ts := 0
    end_ts := 0
    count := 1
    type := "long" }

/-- An outbound gateway that accepts every request. -/
def httpOk : ℕ → Except String Unit := fun _ => .ok ()

/-- An outbound gateway that fails every request. -/
def httpFail : ℕ → Except String Unit := fun _ => .error "connection refused"

/-- A sample pinger config. -/
def pinger0 : Producer.Pinger :=
  { whitelist := ["@op"]
    bot_enabled := false
    message_timeout := 30
    redis_buffer_window := some 2
    output_chat_id := "out1" }

/-- A sample silencer config with the silencer enabled. -/
def silencer0 : Producer.Silencer :=
  { enabled := true
    silence_timeout := 90
    output_chat_id := "out1" }

/-- A sample chat config. -/
def cfg0 : Producer.ChatCfg :=
  { input_chat_name := "Chat One"
    pinger := pinger0
    silencer := silencer0 }

/-- A config table knowing only `"chat1"`. -/
def cfgs0 : ChatId → Option Producer.ChatCfg :=
  fun c => if c = "chat1" then some cfg0 else none

/-- A fresh producer state. -/
def pst0 : Producer.PState :=
  { agg := emptyAgg
    last_silence_notification := fun _ => none
    workers := fun _ => false }

/-- A sample merchant inbound event for `"chat1"`. -/
def payload0 : Producer.IncomingMsg :=
  { messages_id := "mid1"
    parent_message_id := none
    user_id := "u1"
    username := some "alice"
    date := "2025-01-15 10:30:00"
    text := some "how long?"
    change_id := none
    chat_id := "chat1" }

/-- A sample environment: inside working hours, the classifier answers
`\x7b"class": 1\x7d`. -/
def env0 : Producer.Env :=
  { now := 5
    should_process := true
    classify_reply := some ("\x7b\"class\": 1\x7d".toList)
    match_replies := fun _ => none }

/-- The same environment outside working hours (the time gate reports
`False`). -/
def envBlocked : Producer.Env := { env0 with should_process := false }

/-- Python `outcome.get("matched_message_id") if isinstance(outcome, dict)
else None` (`src/producer.py:207`). -/
def getMatched : PyJson → PyJson
  | .obj entries => dictGet entries "matched_message_id"
  | _ => PyJson.null

/-! ## Sorted-set bookkeeping lemmas -/

theorem zscore_zadd_self (zs : List (ChatId × ℚ)) (c : ChatId) (t : ℚ) :
    RedisClient.zscore (RedisClient.zadd zs c t) c = some t := by
  simp [RedisClient.zscore, RedisClient.zadd]

theorem filter_ne_then_eq (l : List (ChatId × ℚ)) (c : ChatId) :
    (l.filter (fun p => p.1 ≠ c)).filter (fun p => p.1 = c) = [] := by
  induction l with
  | nil => rfl
  | cons a l ih => by_cases h : a.1 = c <;> simp [h, ih]

theorem filter_ne_then_eq_other (l : List (ChatId × ℚ)) (c c' : ChatId)
    (h : c' ≠ c) :
    (l.filter (fun p => p.1 ≠ c)).filter (fun p => p.1 = c') =
      l.filter (fun p => p.1 = c') := by
  rw [List.filter_comm]
  apply List.filter_eq_self.mpr
  intro a ha
  have h2 := (List.mem_filter.mp ha).2
  simp only [decide_eq_true_eq] at h2 ⊢
  intro he
  exact h (h2 ▸ he)

theorem filter_key_zadd_self (zs : List (ChatId × ℚ)) (c : ChatId) (t : ℚ) :
    (RedisClient.zadd zs c t).filter (fun p => p.1 = c) = [(c, t)] := by
  simp [RedisClient.zadd, filter_ne_then_eq]

theorem filter_key_zadd_other (zs : List (ChatId × ℚ)) (c c' : ChatId)
    (t : ℚ) (h : c' ≠ c) :
    (RedisClient.zadd zs c t).filter (fun p => p.1 = c') =
      zs.filter (fun p => p.1 = c') := by
  rw [RedisClient.zadd, List.filter_cons_of_neg]
  · exact filter_ne_then_eq_other zs c c' h
  · simp only [decide_eq_true_eq]
    intro he
    exact h he.symm

theorem filter_key_zrem_self (zs : List (ChatId × ℚ)) (c : ChatId) :
    (RedisClient.zrem zs c).filter (fun p => p.1 = c) = [] :=
  filter_ne_then_eq zs c

theorem filter_key_zrem_other (zs : List (ChatId × ℚ)) (c c' : ChatId)
    (h : c' ≠ c) :
    (RedisClient.zrem zs c).filter (fun p => p.1 = c') =
      zs.filter (fun p => p.1 = c') :=
  filter_ne_then_eq_other zs c c' h

theorem zscore_zrem_self (zs : List (ChatId × ℚ)) (c : ChatId) :
    RedisClient.zscore (RedisClient.zrem zs c) c = none := by
  have h : (RedisClient.zrem zs c).find? (fun p => p.1 = c) = none := by
    rw [List.find?_eq_none]
    intro p hp
    have := (List.mem_filter.mp hp).2
    simpa using this
  simp [RedisClient.zscore, h]

/-! ## C1: the aggregator's extend-or-flush behaviour -/

/-- C1: on `process_message` with an active series: same author within the
inclusive window extends the series in place (newline-joined text, the
newline skipped when the stored text is empty, `last_ts ← now`,
`count + 1`) and resets the deadline to `now + window_s`, flushing nothing;
otherwise the old series is flushed to the final stream and a fresh series
with `count = 1`, `start_ts = last_ts = now` is created with a new deadline
at `now + window_s`. -/
theorem C1_process_message_extend_or_flush
    (st : AggState) (chat_id messages_id user_id username user_type text : String)
    (w : ℤ) (now : ℚ) (s : Series) (hs : st.series chat_id = some s) :
    (s.user_id = user_id ∧ now - s.last_ts ≤ (w : ℚ) →
      (RedisClient.process_message st chat_id messages_id user_id username
          user_type text w now).series chat_id =
        some { s with
                text := if s.text = "" then text else s.text ++ "\n" ++ text
                last_ts := now
                count := s.count + 1 } ∧
      RedisClient.zscore (RedisClient.process_message st chat_id messages_id
          user_id username user_type text w now).deadlines chat_id =
        some (now + w) ∧
      (RedisClient.process_message st chat_id messages_id user_id username
          user_type text w now).finals chat_id = st.finals chat_id) ∧
    (¬ (s.user_id = user_id ∧ now - s.last_ts ≤ (w : ℚ)) →
      (RedisClient.process_message st chat_id messages_id user_id username
          user_type text w now).finals chat_id =
        st.finals chat_id ++ [(st.nextId,
          ⟨s.user_id, s.messages_id, s.username, s.user_type, s.text,
            s.start_ts, s.last_ts, s.count, "long"⟩)] ∧
      (RedisClient.process_message st chat_id messages_id user_id username
          user_type text w now).series chat_id =
        some ⟨user_id, messages_id, username, user_type, text, now, now, 1⟩ ∧
      RedisClient.zscore (RedisClient.process_message st chat_id messages_id
          user_id username user_type text w now).deadlines chat_id =
        some (now + w)) := by
  constructor
  · intro h
    rw [RedisClient.process_message, hs]
    simp only [if_pos h]
    refine ⟨?_, ?_, ?_⟩
    · simp [RedisClient.schedule_deadline, RedisClient.setSeries]
    · simpa [RedisClient.schedule_deadline, RedisClient.setSeries] using
        zscore_zadd_self _ chat_id (now + w)
    · simp [RedisClient.schedule_deadline, RedisClient.setSeries]
  · intro h
    rw [RedisClient.process_message, hs]
    simp only [if_neg h]
    refine ⟨?_, ?_, ?_⟩
    · simp [RedisClient.schedule_deadline, RedisClient.setSeries,
        RedisClient.flush_series, hs]
    · simp [RedisClient.schedule_deadline, RedisClient.setSeries,
        RedisClient.flush_series, hs]
    · simpa [RedisClient.schedule_deadline, RedisClient.setSeries,
        RedisClient.flush_series, hs] using
        zscore_zadd_self _ chat_id (now + w)

/-- Witness for C1 at a concrete store: the series of `st0` is extended by
a same-author event at time 11 inside window 2. -/
theorem C1_witness :
    st0.series "chat1" = some s0 ∧
    (s0.user_id = "u1" ∧ (11 : ℚ) - s0.last_ts ≤ ((2 : ℤ) : ℚ)) ∧
    (RedisClient.process_message st0 "chat1" "m2" "u1" "alice" "merchant"
        "world" 2 11).series "chat1" =
      some { s0 with
              text := if s0.text = "" then "world" else s0.text ++ "\n" ++ "world"
              last_ts := 11
              count := s0.count + 1 } :=
  ⟨rfl, ⟨rfl, by norm_num [s0]⟩,
    ((C1_process_message_extend_or_flush st0 "chat1" "m2" "u1" "alice"
        "merchant" "world" 2 11 s0 rfl).1 ⟨rfl, by norm_num [s0]⟩).1⟩

/-! ## C2: the flush operation -/

/-- C2: `flush` with no active series returns `None` and changes nothing;
with a series it appends exactly one final entry carrying the series
fields with `start_ts = series.start_ts`, `end_ts = series.last_ts`,
`count = series.count`, `type = "long"`, deletes the series hash, removes
the chat's deadline entry and returns the new final stream id. -/
theorem C2_flush_series_spec (st : AggState) (chat_id : ChatId) (now : ℚ) :
    (st.series chat_id = none →
      RedisClient.flush_series st chat_id now = (none, st)) ∧
    (∀ s, st.series chat_id = some s →
      (RedisClient.flush_series st chat_id now).1 = some st.nextId ∧
      ((RedisClient.flush_series st chat_id now).2).finals chat_id =
        st.finals chat_id ++ [(st.nextId,
          ⟨s.user_id, s.messages_id, s.username, s.user_type, s.text,
            s.start_ts, s.last_ts, s.count, "long"⟩)] ∧
      ((RedisClient.flush_series st chat_id now).2).series chat_id = none ∧
      RedisClient.zscore ((RedisClient.flush_series st chat_id now).2).deadlines
        chat_id = none) := by
  constructor
  · intro h
    rw [RedisClient.flush_series, h]
  · intro s hs
    rw [RedisClient.flush_series, hs]
    exact ⟨rfl, by simp, by simp, zscore_zrem_self st.deadlines chat_id⟩

/-! ## C3: the series/deadline coupling invariant -/

theorem flush_preserves_DeadlineInv (w : ℤ) (c : ChatId) (st : AggState)
    (chat_id : ChatId) (now : ℚ) (h : DeadlineInv w c st) :
    DeadlineInv w c (RedisClient.flush_series st chat_id now).2 := by
  unfold DeadlineInv at h ⊢
  rcases hse : st.series chat_id with _ | s
  · rw [RedisClient.flush_series, hse]
    exact h
  · rw [RedisClient.flush_series, hse]
    dsimp only
    by_cases hc : c = chat_id
    · subst hc
      constructor
      · intro s' hs'
        simp at hs'
      · intro _
        exact filter_key_zrem_self st.deadlines c
    · constructor
      · intro s' hs'
        simp only [if_neg hc] at hs'
        obtain ⟨t, ht, h1, h2⟩ := h.1 s' hs'
        exact ⟨t, by rw [filter_key_zrem_other _ _ _ hc]; exact ht, h1, h2⟩
      · intro hn
        simp only [if_neg hc] at hn
        rw [filter_key_zrem_other _ _ _ hc]
        exact h.2 hn

theorem process_message_preserves_DeadlineInv (w : ℤ) (hw : 0 ≤ w)
    (c : ChatId) (st : AggState)
    (chat_id messages_id user_id username user_type text : String) (now : ℚ)
    (h : DeadlineInv w c st) :
    DeadlineInv w c (RedisClient.process_message st chat_id messages_id
      user_id username user_type text w now) := by
  have hw' : (0 : ℚ) ≤ (w : ℚ) := by exact_mod_cast hw
  have hflush := flush_preserves_DeadlineInv w c st chat_id now h
  unfold DeadlineInv at h hflush ⊢
  by_cases hc : c = chat_id
  · subst hc
    rcases hse : st.series c with _ | s <;>
      rw [RedisClient.process_message, hse] <;> dsimp only
    · dsimp only [RedisClient.schedule_deadline, RedisClient.setSeries]
      constructor
      · intro s' hs'
        simp only [if_pos rfl] at hs'
        obtain rfl := Option.some.inj hs'
        exact ⟨now + w, filter_key_zadd_self _ _ _, by linarith, by linarith⟩
      · intro hn
        simp at hn
    · by_cases hcond : s.user_id = user_id ∧ now - s.last_ts ≤ (w : ℚ)
      · rw [if_pos hcond]
        dsimp only [RedisClient.schedule_deadline, RedisClient.setSeries]
        constructor
        · intro s' hs'
          simp only [if_pos rfl] at hs'
          obtain rfl := Option.some.inj hs'
          exact ⟨now + w, filter_key_zadd_self _ _ _, by dsimp; linarith,
            by dsimp; linarith⟩
        · intro hn
          simp at hn
      · rw [if_neg hcond]
        dsimp only [RedisClient.schedule_deadline, RedisClient.setSeries]
        constructor
        · intro s' hs'
          simp only [if_pos rfl] at hs'
          obtain rfl := Option.some.inj hs'
          exact ⟨now + w, filter_key_zadd_self _ _ _, by dsimp; linarith,
            by dsimp; linarith⟩
        · intro hn
          simp at hn
  · rcases hse : st.series chat_id with _ | s <;>
      rw [RedisClient.process_message, hse] <;> dsimp only
    · dsimp only [RedisClient.schedule_deadline, RedisClient.setSeries]
      constructor
      · intro s' hs'
        simp only [if_neg hc] at hs'
        obtain ⟨t, ht, h1, h2⟩ := h.1 s' hs'
        exact ⟨t, by rw [filter_key_zadd_other _ _ _ _ hc]; exact ht, h1, h2⟩
      · intro hn
        simp only [if_neg hc] at hn
        rw [filter_key_zadd_other _ _ _ _ hc]
        exact h.2 hn
    · by_cases hcond : s.user_id = user_id ∧ now - s.last_ts ≤ (w : ℚ)
      · rw [if_pos hcond]
        dsimp only [RedisClient.schedule_deadline, RedisClient.setSeries]
        constructor
        · intro s' hs'
          simp only [if_neg hc] at hs'
          obtain ⟨t, ht, h1, h2⟩ := h.1 s' hs'
          exact ⟨t, by rw [filter_key_zadd_other _ _ _ _ hc]; exact ht, h1, h2⟩
        · intro hn
          simp only [if_neg hc] at hn
          rw [filter_key_zadd_other _ _ _ _ hc]
          exact h.2 hn
      · rw [if_neg hcond]
        dsimp only [RedisClient.schedule_deadline, RedisClient.setSeries]
        constructor
        · intro s' hs'
          simp only [if_neg hc] at hs'
          obtain ⟨t, ht, h1, h2⟩ := hflush.1 s' hs'
          exact ⟨t, by rw [filter_key_zadd_other _ _ _ _ hc]; exact ht, h1, h2⟩
        · intro hn
          simp only [if_neg hc] at hn
          rw [filter_key_zadd_other _ _ _ _ hc]
          exact hflush.2 hn

theorem foldl_flush_preserves_DeadlineInv (w : ℤ) (c : ChatId) (now : ℚ) :
    ∀ (l : List ChatId) (acc : ℕ × AggState), DeadlineInv w c acc.2 →
      DeadlineInv w c (l.foldl
        (fun acc chat_id =>
          let r := RedisClient.flush_series acc.2 chat_id now
          (acc.1 + (if r.1.isSome then 1 else 0), r.2)) acc).2
  | [], _, h => h
  | chat_id :: rest, acc, h => by
    simp only [List.foldl_cons]
    exact foldl_flush_preserves_DeadlineInv w c now rest _
      (flush_preserves_DeadlineInv w c acc.2 chat_id now h)

/-- C3: every aggregator operation (`process_message`, flush,
`scheduler_tick`) preserves, for every chat, the invariant that an active
series comes with exactly one scheduler entry `(chat, t)` satisfying
`last_ts ≤ t ≤ last_ts + window_s`, and that without an active series —
in particular right after a flush — no scheduler entry for the chat
remains. -/
theorem C3_deadline_invariant (w : ℤ) (hw : 0 ≤ w) :
    (∀ st c chat_id messages_id user_id username user_type text now,
      DeadlineInv w c st →
      DeadlineInv w c (RedisClient.process_message st chat_id messages_id
        user_id username user_type text w now)) ∧
    (∀ st c chat_id now, DeadlineInv w c st →
      DeadlineInv w c (RedisClient.flush_series st chat_id now).2) ∧
    (∀ st c max_batch now, DeadlineInv w c st →
      DeadlineInv w c (RedisClient.scheduler_tick st max_batch now).2) := by
  refine ⟨?_, ?_, ?_⟩
  · intro st c chat_id messages_id user_id username user_type text now h
    exact process_message_preserves_DeadlineInv w hw c st chat_id messages_id
      user_id username user_type text now h
  · intro st c chat_id now h
    exact flush_preserves_DeadlineInv w c st chat_id now h
  · intro st c max_batch now h
    unfold RedisClient.scheduler_tick
    exact foldl_flush_preserves_DeadlineInv w c now _ (0, st) h

/-- Witness for C3: the invariant holds in the concrete store `st0` and is
preserved by a concrete `process_message` call. -/
theorem C3_witness :
    DeadlineInv 2 "chat1" st0 ∧
    DeadlineInv 2 "chat1" (RedisClient.process_message st0 "chat1" "m2" "u1"
      "alice" "merchant" "hi" 2 11) := by
  have h0 : DeadlineInv 2 "chat1" st0 := by
    unfold DeadlineInv
    constructor
    · intro s hs
      have hs0 : s0 = s := by
        have : some s0 = some s := by simpa [st0, emptyAgg] using hs
        exact Option.some.inj this
      refine ⟨12, by rfl, ?_, ?_⟩ <;> rw [← hs0] <;> norm_num [s0, st0]
    · intro hn
      simp [st0, emptyAgg] at hn
  exact ⟨h0, (C3_deadline_invariant 2 (by norm_num)).1 st0 "chat1" "chat1"
    "m2" "u1" "alice" "merchant" "hi" 11 h0⟩

/-- Witness for C2 at the concrete store `st0`. -/
theorem C2_witness :
    st0.series "chat1" = some s0 ∧
    (RedisClient.flush_series st0 "chat1" 20).1 = some st0.nextId ∧
    ((RedisClient.flush_series st0 "chat1" 20).2).series "chat1" = none ∧
    RedisClient.zscore ((RedisClient.flush_series st0 "chat1" 20).2).deadlines
      "chat1" = none :=
  ⟨rfl,
    ((C2_flush_series_spec st0 "chat1" 20).2 s0 rfl).1,
    ((C2_flush_series_spec st0 "chat1" 20).2 s0 rfl).2.2.1,
    ((C2_flush_series_spec st0 "chat1" 20).2 s0 rfl).2.2.2⟩

/-! ## C4: the escalation monitor's reminder branch -/

theorem send_message_deletes (finals : List (ℕ × FinalMsg)) (id : ℕ)
    (r : Except String Unit) :
    Producer.send_message finals id r = finals.filter (fun p => p.1 ≠ id) := by
  cases r <;> rfl

theorem reminder_foldl_spec (now : ℚ) (timeout : ℤ)
    (http : ℕ → Except String Unit) :
    ∀ (cands fs : List (ℕ × FinalMsg)) (acc : List ℕ),
      (cands.foldl (fun acc2 p =>
        if Producer.pyTrunc (now - p.2.end_ts) > timeout then
          (Producer.send_message acc2.1 p.1 (http p.1), acc2.2 ++ [p.1])
        else acc2) (fs, acc)) =
      (fs.filter (fun q => ! cands.any (fun p =>
          decide (Producer.pyTrunc (now - p.2.end_ts) > timeout) && (q.1 == p.1))),
        acc ++ (cands.filter (fun p =>
          decide (Producer.pyTrunc (now - p.2.end_ts) > timeout))).map Prod.fst) := by
  intro cands
  induction cands with
  | nil =>
    intro fs acc
    simp
  | cons p rest ih =>
    intro fs acc
    simp only [List.foldl_cons]
    by_cases hf : Producer.pyTrunc (now - p.2.end_ts) > timeout
    · rw [if_pos hf, send_message_deletes, ih]
      refine Prod.ext_iff.mpr ⟨?_, ?_⟩
      · rw [List.filter_filter]
        apply List.filter_congr
        intro q _
        by_cases hq : q.1 = p.1 <;> simp [hq, hf]
      · simp [List.filter_cons, hf]
    · rw [if_neg hf, ih]
      refine Prod.ext_iff.mpr ⟨?_, ?_⟩
      · apply List.filter_congr
        intro q _
        by_cases hq : q.1 = p.1 <;> simp [hq, hf]
      · simp [List.filter_cons, hf]

/-- C4 (amended): in the reminder branch, over the merchant messages among
the 50 newest finals, a reminder is emitted exactly when
`int(now - end_ts)` — Python truncation toward zero — exceeds
`message_timeout`; every final whose id matches a reminded candidate is
deleted and every other final survives; the deletion happens even when the
outbound HTTP call raises, and the whole pass is insensitive to the HTTP
outcomes, giving at-most-once reminders. -/
theorem C4_reminders_truncated_age (finals : List (ℕ × FinalMsg)) (now : ℚ)
    (timeout : ℤ) (http http' : ℕ → Except String Unit) (id : ℕ) (e : String) :
    (Producer.check_pending_reminders finals now timeout http).2 =
      (((finals.reverse.take 50).filter (fun p => p.2.user_type = "merchant")).filter
        (fun p => decide (Producer.pyTrunc (now - p.2.end_ts) > timeout))).map
        Prod.fst ∧
    (Producer.check_pending_reminders finals now timeout http).1 =
      finals.filter (fun q =>
        ! ((finals.reverse.take 50).filter (fun p => p.2.user_type = "merchant")).any
          (fun p => decide (Producer.pyTrunc (now - p.2.end_ts) > timeout) &&
            (q.1 == p.1))) ∧
    Producer.send_message finals id (.error e) =
      finals.filter (fun p => p.1 ≠ id) ∧
    Producer.check_pending_reminders finals now timeout http =
      Producer.check_pending_reminders finals now timeout http' := by
  refine ⟨?_, ?_, send_message_deletes finals id (.error e), ?_⟩
  · show (Producer.check_pending_reminders finals now timeout http).2 = _
    rw [Producer.check_pending_reminders, reminder_foldl_spec now timeout http]
    simp
  · show (Producer.check_pending_reminders finals now timeout http).1 = _
    rw [Producer.check_pending_reminders, reminder_foldl_spec now timeout http]
  · rw [Producer.check_pending_reminders, reminder_foldl_spec now timeout http,
      Producer.check_pending_reminders, reminder_foldl_spec now timeout http']

/-- Counterexample for C4 as stated: with `now - end_ts = 30.5` and
`message_timeout = 30`, the claim's condition `now - end_ts > timeout`
holds, yet the code's truncated age `int(30.5) = 30` does not exceed the
timeout: no reminder is emitted and the merchant final survives. -/
theorem C4_counterexample :
    fOld.user_type = "merchant" ∧
    ((30 : ℤ) : ℚ) < (61 : ℚ) / 2 - fOld.end_ts ∧
    Producer.check_pending_reminders [(0, fOld)] ((61 : ℚ) / 2) 30 httpOk =
      ([(0, fOld)], []) := by
  have hend : fOld.end_ts = 0 := rfl
  have hfl : Producer.pyTrunc ((61 : ℚ) / 2 - fOld.end_ts) = 30 := by
    rw [hend]
    unfold Producer.pyTrunc
    rw [if_pos (by norm_num)]
    norm_num
  have hcond : ¬ (Producer.pyTrunc ((61 : ℚ) / 2 - fOld.end_ts) > 30) := by
    rw [hfl]
    norm_num
  refine ⟨rfl, by norm_num [fOld], ?_⟩
  rw [Producer.check_pending_reminders]
  norm_num [List.filter, List.foldl, hcond]

/-! ## C5: the silence-clock refresh on ingress -/

theorem ensure_worker_silence (cfg : Producer.ChatCfg) (st : Producer.PState)
    (chat_id : ChatId) :
    (Producer.ensure_worker_for_chat cfg st chat_id).last_silence_notification =
      st.last_silence_notification := by
  rw [Producer.ensure_worker_for_chat]
  dsimp only
  split <;> rfl

theorem merchant_classify_path_silence (env : Producer.Env)
    (chat_id messages_id user_id username text : String)
    (st : Producer.PState) :
    ((Producer.merchant_classify_path env chat_id messages_id user_id username
        text st).2).last_silence_notification = st.last_silence_notification := by
  rw [Producer.merchant_classify_path.eq_def]
  dsimp only
  repeat' split
  all_goals rfl

theorem merchant_path_silence (env : Producer.Env)
    (chat_id messages_id user_id username text : String)
    (st : Producer.PState) :
    ((Producer.merchant_path env chat_id messages_id user_id username
        text st).2).last_silence_notification = st.last_silence_notification := by
  rw [Producer.merchant_path.eq_def]
  dsimp only
  repeat' split
  all_goals first
    | rfl
    | apply merchant_classify_path_silence

theorem pp_path_silence (env : Producer.Env) (parent : Option String)
    (chat_id messages_id user_id username text : String)
    (st : Producer.PState) :
    ((Producer.pp_path env parent chat_id messages_id user_id username
        text st).2).last_silence_notification = st.last_silence_notification := by
  rw [Producer.pp_path.eq_def]
  dsimp only
  repeat' split
  all_goals rfl

/-- C5 (amended): the ingress router sets the chat's
`last_silence_notification` to the current time for every event that
passes the chat-known, working-hours and edit checks while
`silencer.enabled` — regardless of everything that happens afterwards
(user type, bot gating, classification outcome, or processing result). -/
theorem C5_silence_clock_after_admission
    (CONFIG : ChatId → Option Producer.ChatCfg) (bot : String)
    (env : Producer.Env) (st : Producer.PState)
    (payload : Producer.IncomingMsg) (cfg : Producer.ChatCfg)
    (hc : CONFIG payload.chat_id = some cfg)
    (ht : env.should_process = true)
    (he : payload.change_id = none)
    (hsil : cfg.silencer.enabled = true) :
    ((Producer.process_incoming_message CONFIG bot env st
        payload).2).last_silence_notification payload.chat_id = some env.now := by
  rw [Producer.process_incoming_message, hc]
  dsimp only
  rw [if_neg (by simp [ht]), if_neg (by simp [he]), if_pos hsil]
  split
  · rw [pp_path_silence, ensure_worker_silence]
    dsimp only
    rw [if_pos rfl]
  · split
    · split
      · dsimp only
        rw [ensure_worker_silence]
        dsimp only
        rw [if_pos rfl]
      · rw [pp_path_silence, ensure_worker_silence]
        dsimp only
        rw [if_pos rfl]
    · rw [merchant_path_silence, ensure_worker_silence]
      dsimp only
      rw [if_pos rfl]

/-- Witness for C5 at concrete inputs: an admitted merchant event on a
silencer-enabled chat stamps the clock. -/
theorem C5_witness :
    cfgs0 payload0.chat_id = some cfg0 ∧
    cfg0.silencer.enabled = true ∧
    ((Producer.process_incoming_message cfgs0 "botU" env0 pst0
        payload0).2).last_silence_notification payload0.chat_id = some env0.now :=
  ⟨rfl, rfl, C5_silence_clock_after_admission cfgs0 "botU" env0 pst0 payload0
    cfg0 rfl rfl rfl rfl⟩

/-- Counterexample for C5 as stated: a time-blocked event on a chat whose
silencer is enabled does not touch the silence clock (the update sits
after the admission checks in `process_incoming_message`). -/
theorem C5_counterexample :
    cfg0.silencer.enabled = true ∧
    cfgs0 payload0.chat_id = some cfg0 ∧
    envBlocked.should_process = false ∧
    ((Producer.process_incoming_message cfgs0 "botU" envBlocked pst0
        payload0).2).last_silence_notification "chat1" = none :=
  ⟨rfl, rfl, rfl, rfl⟩

/-! ## C6: the ingress status vocabulary -/

/-- C6 (amended): every JSON body returned by `process_incoming_message`
has a `status` among the three strings `"in processing"`, `"ignored"`,
`"blocked"` (the source spells the processing status with a space, not
`in_processing`). -/
theorem merchant_classify_path_status (env : Producer.Env)
    (chat_id messages_id user_id username text : String)
    (st : Producer.PState) (resp : Producer.Response)
    (h : (Producer.merchant_classify_path env chat_id messages_id user_id
      username text st).1 = .ok resp) :
    resp.status = "in processing" ∨ resp.status = "ignored" := by
  rw [Producer.merchant_classify_path.eq_def] at h
  dsimp only at h
  repeat' split at h
  all_goals first
    | (cases h; simp)
    | (simp at h)

theorem merchant_path_status (env : Producer.Env)
    (chat_id messages_id user_id username text : String)
    (st : Producer.PState) (resp : Producer.Response)
    (h : (Producer.merchant_path env chat_id messages_id user_id username
      text st).1 = .ok resp) :
    resp.status = "in processing" ∨ resp.status = "ignored" := by
  rw [Producer.merchant_path.eq_def] at h
  dsimp only at h
  repeat' split at h
  all_goals first
    | (cases h; simp)
    | exact merchant_classify_path_status _ _ _ _ _ _ _ _ h

theorem pp_path_status (env : Producer.Env) (parent : Option String)
    (chat_id messages_id user_id username text : String)
    (st : Producer.PState) (resp : Producer.Response)
    (h : (Producer.pp_path env parent chat_id messages_id user_id username
      text st).1 = .ok resp) :
    resp.status = "in processing" := by
  rw [Producer.pp_path.eq_def] at h
  dsimp only at h
  repeat' split at h
  all_goals first
    | (cases h; simp)
    | (simp at h)

/-- C6 (amended): every JSON body returned by `process_incoming_message`
has a `status` among the three strings `"in processing"`, `"ignored"`,
`"blocked"` (the source spells the processing status with a space, not
`in_processing`). -/
theorem C6_status_vocabulary
    (CONFIG : ChatId → Option Producer.ChatCfg) (bot : String)
    (env : Producer.Env) (st : Producer.PState)
    (payload : Producer.IncomingMsg) (resp : Producer.Response)
    (h : (Producer.process_incoming_message CONFIG bot env st payload).1 =
      .ok resp) :
    resp.status = "in processing" ∨ resp.status = "ignored" ∨
      resp.status = "blocked" := by
  rw [Producer.process_incoming_message] at h
  dsimp only at h
  split at h
  · cases h
    simp
  · split at h
    · cases h
      simp
    · split at h
      · cases h
        simp
      · split at h
        · exact Or.inl (pp_path_status _ _ _ _ _ _ _ _ _ h)
        · split at h
          · split at h
            · cases h
              simp
            · exact Or.inl (pp_path_status _ _ _ _ _ _ _ _ _ h)
          · rcases merchant_path_status _ _ _ _ _ _ _ _ h with h1 | h1
            · exact Or.inl h1
            · exact Or.inr (Or.inl h1)

/-- Witness for C6 at a concrete input: a time-blocked event returns the
`"blocked"` status, which lies in the allowed set. -/
theorem C6_witness :
    ((Producer.process_incoming_message cfgs0 "botU" envBlocked pst0
        payload0).1 = Producer.PResult.ok
      { status := "blocked", reason := some "time_blocked", message_id := none }) ∧
    ("blocked" = "in processing" ∨ "blocked" = "ignored" ∨
      "blocked" = "blocked") :=
  ⟨rfl, C6_status_vocabulary cfgs0 "botU" envBlocked pst0 payload0
    { status := "blocked", reason := some "time_blocked", message_id := none } rfl⟩

/-- Counterexample for C6 as stated: the processing status returned by the
code is the string `"in processing"` (with a space), which is not one of
`in_processing`, `ignored`, `blocked`. -/
theorem C6_counterexample :
    (Producer.process_incoming_message cfgs0 "botU" env0 pst0 payload0).1 =
      Producer.PResult.ok { status := "in processing", reason := none, message_id := some 0 } ∧
    ¬ ("in processing" = "in_processing" ∨ "in processing" = "ignored" ∨
      "in processing" = "blocked") :=
  ⟨by decide, by decide⟩

/-! ## C7: the append-to-last-long rewrite -/

/-- C7 (amended): `append_to_last_long` scans at most the 100 newest final
messages; with no merchant final of this user among them it returns `None`
and changes nothing; otherwise it appends one combined record — text
newline-joined (the newline skipped when the matched final's text is
empty), `start_ts` kept, `end_ts = now`, `count + 1` — deletes the old
entry and returns the new id. -/
theorem C7_append_to_last_long (st : AggState)
    (chat_id user_id username text : String) (now : ℚ) :
    ((RedisClient.get_final_messages st chat_id 100).find? (fun p =>
        p.2.user_type = "merchant" ∧ p.2.user_id = user_id) = none →
      Producer.append_to_last_long_for_user st chat_id user_id username text
        now = (none, st)) ∧
    (∀ rid f, (RedisClient.get_final_messages st chat_id 100).find? (fun p =>
        p.2.user_type = "merchant" ∧ p.2.user_id = user_id) = some (rid, f) →
      (Producer.append_to_last_long_for_user st chat_id user_id username text
        now).1 = some st.nextId ∧
      ((Producer.append_to_last_long_for_user st chat_id user_id username text
        now).2).finals chat_id =
        (st.finals chat_id ++ [(st.nextId,
          (⟨user_id, f.messages_id,
            (if username = "" then f.username else username), "merchant",
            (if f.text = "" then text else f.text ++ "\n" ++ text),
            f.start_ts, now, f.count + 1, "long"⟩ : FinalMsg))]).filter
          (fun p => p.1 ≠ rid)) := by
  constructor
  · intro h
    rw [Producer.append_to_last_long_for_user, h]
  · intro rid f h
    rw [Producer.append_to_last_long_for_user, h]
    dsimp only [Producer.xdel_final]
    exact ⟨rfl, by simp⟩

/-- Witness for C7 at the concrete store `st7`: its single (empty-text)
merchant final is found and rewritten. -/
theorem C7_witness :
    ((RedisClient.get_final_messages st7 "chat7" 100).find? (fun p =>
        p.2.user_type = "merchant" ∧ p.2.user_id = "u7") =
      some (0, fEmptyText)) ∧
    (Producer.append_to_last_long_for_user st7 "chat7" "u7" "bob" "ask"
      3).1 = some st7.nextId :=
  ⟨by decide,
    ((C7_append_to_last_long st7 "chat7" "u7" "bob" "ask" 3).2 0 fEmptyText
      (by decide)).1⟩

/-- Counterexample for C7 as stated: when the matched final's text is
empty, the combined text is `text` alone, not
`old.text ++ "\n" ++ text`. -/
theorem C7_counterexample :
    fEmptyText.text = "" ∧
    ((Producer.append_to_last_long_for_user st7 "chat7" "u7" "bob" "ask"
        3).2).finals "chat7" =
      [(1, ⟨"u7", "m7", "bob", "merchant", "ask", 1, 3, 2, "long"⟩)] ∧
    "ask" ≠ fEmptyText.text ++ "\n" ++ "ask" :=
  ⟨rfl, by decide, by decide⟩

/-! ## C8: the answer-matching retry loop -/

theorem parse_llm_json_isOk (raw : Option (List Char)) :
    ∃ r, LLM.parse_llm_json raw = .ok r := by
  cases raw with
  | none => exact ⟨none, rfl⟩
  | some raw =>
    rw [LLM.parse_llm_json]
    dsimp only
    repeat' split
    all_goals exact ⟨_, rfl⟩

theorem dictGet_map_replace (k : String) (v : PyJson) :
    ∀ entries : List (String × PyJson),
      entries.any (fun kv => kv.1 = k) = true →
      dictGet (entries.map (fun kv => if kv.1 = k then (kv.1, v) else kv)) k = v
  | [], h => by simp at h
  | kv :: rest, h => by
    by_cases hk : kv.1 = k
    · have hfind : (((kv.1, v) :: rest.map
          (fun kv => if kv.1 = k then (kv.1, v) else kv)).find?
            (fun kv => kv.1 = k)) = some (kv.1, v) :=
        List.find?_cons_of_pos _ (by simpa using hk)
      simp [dictGet, List.map_cons, if_pos hk, hfind]
    · have h' : rest.any (fun kv => kv.1 = k) = true := by
        simpa [List.any_cons, hk] using h
      rw [List.map_cons, if_neg hk, dictGet,
        List.find?_cons_of_neg _ (by simpa using hk)]
      simpa [dictGet] using dictGet_map_replace k v rest h'

theorem dictGet_append_new (k : String) (v : PyJson) :
    ∀ entries : List (String × PyJson),
      ¬ entries.any (fun kv => kv.1 = k) = true →
      dictGet (entries ++ [(k, v)]) k = v
  | [], _ => by simp [dictGet]
  | kv :: rest, h => by
    have hk : ¬ kv.1 = k := by
      intro he
      exact h (by simp [List.any_cons, he])
    have h' : ¬ rest.any (fun kv => kv.1 = k) = true := by
      intro he
      exact h (by simp [List.any_cons, he])
    rw [List.cons_append, dictGet,
      List.find?_cons_of_neg _ (by simpa using hk)]
    simpa [dictGet] using dictGet_append_new k v rest h'

theorem dictGet_dictSet (entries : List (String × PyJson)) (k : String)
    (v : PyJson) : dictGet (dictSet entries k v) k = v := by
  rw [dictSet]
  split
  · exact dictGet_map_replace k v entries (by assumption)
  · exact dictGet_append_new k v entries (by assumption)

theorem match_attempts_spec (replies : ℕ → Option (List Char)) :
    ∀ (remaining attempt : ℕ) (user_msg : String) (last_parsed : PyJson),
      isPyNull (getMatched last_parsed) = true →
      ∃ r prompts,
        Producer.match_attempts replies remaining attempt user_msg
          last_parsed = .ok (r, prompts) ∧
        prompts.length ≤ remaining ∧
        (remaining = 0 → prompts = []) ∧
        (0 < remaining → prompts.head? =
          some (if 0 < attempt then Producer.failNote ++ user_msg else user_msg)) ∧
        List.Chain' (fun a b => b = Producer.failNote ++ a) prompts ∧
        (isPyNull (getMatched r) || isPyIntInstance (getMatched r)) = true := by
  intro remaining
  induction remaining with
  | zero =>
    intro attempt user_msg last_parsed hnull
    refine ⟨last_parsed, [], rfl, by simp, fun _ => rfl, ?_, by simp,
      by simp [hnull]⟩
    intro h
    exact absurd h (by norm_num)
  | succ n ih =>
    intro attempt user_msg last_parsed hnull
    obtain ⟨pv, hpv⟩ := parse_llm_json_isOk (replies attempt)
    rw [Producer.match_attempts]
    dsimp only
    rw [hpv]
    rcases pv with _ | v
    · dsimp only
      obtain ⟨r, prompts, hrec, hlen, hzero, hhead, hchain, hgood⟩ :=
        ih (attempt + 1) (if 0 < attempt then Producer.failNote ++ user_msg
          else user_msg) last_parsed hnull
      rw [hrec]
      refine ⟨r, _ :: prompts, rfl, by simpa using hlen, by simp, fun _ => rfl,
        ?_, hgood⟩
      refine List.chain'_cons'.mpr ⟨?_, hchain⟩
      intro b hb
      rcases n with _ | m
      · rw [hzero rfl] at hb
        simp at hb
      · rw [hhead (Nat.succ_pos m)] at hb
        simp at hb
        exact hb.symm
    · rcases v with _ | b | nn | q | str | elems | entries
      case obj =>
        dsimp only
        by_cases hm : (isPyNull (dictGet entries "matched_message_id") ||
          isPyIntInstance (dictGet entries "matched_message_id")) = true
        · rw [if_pos hm]
          exact ⟨.obj entries, [_], rfl, by simp, by simp, fun _ => rfl,
            by simp, by simpa [getMatched] using hm⟩
        · rw [if_neg hm]
          have hnull' : isPyNull (getMatched
              (PyJson.obj (dictSet entries "matched_message_id" .null))) = true := by
            simp [getMatched, dictGet_dictSet, isPyNull]
          obtain ⟨r, prompts, hrec, hlen, hzero, hhead, hchain, hgood⟩ :=
            ih (attempt + 1) (if 0 < attempt then Producer.failNote ++ user_msg
              else user_msg) _ hnull'
          rw [hrec]
          refine ⟨r, _ :: prompts, rfl, by simpa using hlen, by simp,
            fun _ => rfl, ?_, hgood⟩
          refine List.chain'_cons'.mpr ⟨?_, hchain⟩
          intro b hb
          rcases n with _ | m
          · rw [hzero rfl] at hb
            simp at hb
          · rw [hhead (Nat.succ_pos m)] at hb
            simp at hb
            exact hb.symm
      all_goals dsimp only
      all_goals
        obtain ⟨r, prompts, hrec, hlen, hzero, hhead, hchain, hgood⟩ :=
          ih (attempt + 1) (if 0 < attempt then Producer.failNote ++ user_msg
            else user_msg) last_parsed hnull
      all_goals rw [hrec]
      all_goals
        refine ⟨r, _ :: prompts, rfl, by simpa using hlen, by simp,
          fun _ => rfl, ?_, hgood⟩
      all_goals
        refine List.chain'_cons'.mpr ⟨?_, hchain⟩
      all_goals
        intro b hb
      all_goals
        rcases n with _ | m
      all_goals first
        | (rw [hzero rfl] at hb
           simp at hb)
        | (rw [hhead (Nat.succ_pos m)] at hb
           simp at hb
           exact hb.symm)

/-- C8: `match_answer` makes at most three LLM attempts; the first user
prompt is the candidates/answer prompt, every retry prompt is the previous
prompt prefixed with the failure note; the call never raises, and the
returned value's `matched_message_id` is always `None` or an `int` (in
Python's `isinstance` sense). -/
theorem C8_match_answer_retries (replies : ℕ → Option (List Char))
    (messages : List Producer.MerchantMsg) (answer : String) :
    ∃ r prompts,
      Producer.match_answer_to_question replies messages answer =
        .ok (r, prompts) ∧
      prompts.length ≤ 3 ∧
      prompts.head? = some (Producer.mk_user_msg messages answer) ∧
      List.Chain' (fun a b => b = Producer.failNote ++ a) prompts ∧
      (isPyNull (getMatched r) || isPyIntInstance (getMatched r)) = true := by
  obtain ⟨r, prompts, hrec, hlen, _, hhead, hchain, hgood⟩ :=
    match_attempts_spec replies 3 0 (Producer.mk_user_msg messages answer)
      (.obj [("matched_message_id", PyJson.null)])
      (by simp [getMatched, dictGet, isPyNull])
  refine ⟨r, prompts, hrec, hlen, ?_, hchain, hgood⟩
  simpa using hhead (by norm_num)

/-! ## C9: the classify reply parser -/

theorem firstIdxOf_append_of_not_mem (c : Char) :
    ∀ (a b : List Char), c ∉ a →
      LLM.firstIdxOf c (a ++ b) =
        (LLM.firstIdxOf c b).map (fun i => a.length + i)
  | [], b, _ => by
    rcases h : LLM.firstIdxOf c b with _ | i <;> simp [h]
  | x :: a, b, h => by
    have hx : ¬ x = c := fun he => h (by simp [he])
    rw [List.cons_append, LLM.firstIdxOf, if_neg hx,
      firstIdxOf_append_of_not_mem c a b (fun hm => h (by simp [hm]))]
    rcases LLM.firstIdxOf c b with _ | i
    · simp
    · simp
      omega

/-- C9 (amended): `classify_text`'s parsing extracts the substring from the
first left brace to the last right brace (when the former precedes the
latter) and `json.loads` it, else decodes the whole reply.  It therefore
succeeds on any JSON document that starts with a left brace and ends with a
right brace — bare or wrapped in brace-free text such as a fenced code
block — and on the literal `null`; the literal `none` raises a decode
error. -/
theorem C9_classify_tolerant (pre s post : List Char) (v : PyJson)
    (hpre : lbrace ∉ pre) (hpost : rbrace ∉ post)
    (hhead : s.head? = some lbrace) (hlast : s.getLast? = some rbrace)
    (hj : json_loads s = .ok v) :
    LLM.classify_parse_reply (pre ++ s ++ post) = .ok v ∧
    LLM.classify_parse_reply ("null".toList) = .ok PyJson.null ∧
    LLM.classify_parse_reply ("none".toList) = .error "Expecting value" := by
  refine ⟨?_, rfl, rfl⟩
  have hslen : 2 ≤ s.length := by
    rcases s with _ | ⟨a, t⟩
    · simp at hhead
    · rcases t with _ | ⟨b, u⟩
      · simp at hhead hlast
        rw [hhead] at hlast
        exact absurd hlast (by decide)
      · simp only [List.length_cons]
        omega
  have hfirst : LLM.firstIdxOf lbrace (pre ++ s ++ post) = some pre.length := by
    rw [List.append_assoc, firstIdxOf_append_of_not_mem lbrace pre (s ++ post) hpre]
    rcases s with _ | ⟨a, t⟩
    · simp at hhead
    · have ha : a = lbrace := by simpa using hhead
      rw [List.cons_append, LLM.firstIdxOf, if_pos ha]
      simp
  have hlastIdx : LLM.lastIdxOf rbrace (pre ++ s ++ post) =
      some (pre.length + s.length - 1) := by
    rw [LLM.lastIdxOf]
    have hrev : (pre ++ s ++ post).reverse =
        post.reverse ++ (s.reverse ++ pre.reverse) := by
      simp
    rw [hrev, firstIdxOf_append_of_not_mem rbrace post.reverse _
      (by simpa using hpost)]
    have hsr : s.reverse.head? = some rbrace := by
      rw [List.head?_reverse]
      exact hlast
    rcases hsrev : s.reverse with _ | ⟨a, t⟩
    · rw [hsrev] at hsr
      simp at hsr
    · rw [hsrev] at hsr
      have ha : a = rbrace := by simpa using hsr
      rw [List.cons_append, LLM.firstIdxOf, if_pos ha]
      simp
      omega
  rw [LLM.classify_parse_reply, LLM.reSearchBraces, hfirst, hlastIdx]
  dsimp only
  rw [if_pos (show pre.length < pre.length + s.length - 1 by omega)]
  dsimp only
  have hdrop : ((pre ++ s ++ post).drop pre.length) = s ++ post := by
    rw [List.append_assoc]
    exact List.drop_left pre (s ++ post)
  have htake : (pre.length + s.length - 1) - pre.length + 1 = s.length := by
    omega
  rw [hdrop, htake, List.take_left]
  exact hj

/-- Witness for C9: a fenced classification reply parses to its JSON
object. -/
theorem C9_witness :
    lbrace ∉ "```json\n".toList ∧
    LLM.classify_parse_reply ("```json\n".toList ++
        "\x7b\"a\": 1\x7d".toList ++ "\n```".toList) =
      .ok (PyJson.obj [("a", PyJson.int 1)]) :=
  ⟨by decide,
    (C9_classify_tolerant "```json\n".toList "\x7b\"a\": 1\x7d".toList
      "\n```".toList (PyJson.obj [("a", PyJson.int 1)]) (by decide) (by decide)
      (by decide) (by decide) rfl).1⟩

/-- Counterexample for C9 as stated: the literal reply `none` makes the
classify parser raise a JSON decode error (`classify_text` does not use
the tolerant `_parse_llm_json`). -/
theorem C9_counterexample :
    LLM.classify_parse_reply ("none".toList) = .error "Expecting value" := rfl

/-! ## C10: totality of the tolerant LLM reply parser -/

/-- C10: `_parse_llm_json` is total: for every input — `None`, empty or
whitespace-only strings, fenced blocks, backtick-wrapped content, the
`null`/`none` literals in any case, valid JSON, or arbitrary non-JSON
text — it returns a parsed value or `None` and never lets an exception
escape (the only raising call, `json.loads`, sits inside `try/except`). -/
theorem C10_parse_llm_json_total :
    (∀ raw, ∃ r, LLM.parse_llm_json raw = .ok r) ∧
    LLM.parse_llm_json none = .ok none ∧
    LLM.parse_llm_json (some ("   ".toList)) = .ok none ∧
    LLM.parse_llm_json (some ("NONE".toList)) = .ok none ∧
    LLM.parse_llm_json (some ("`null`".toList)) = .ok none ∧
    LLM.parse_llm_json (some ("not json at all".toList)) = .ok none ∧
    LLM.parse_llm_json (some ("```json\n\x7b\"matched_message_id\": 3\x7d\n```".toList)) =
      .ok (some (PyJson.obj [("matched_message_id", PyJson.int 3)])) :=
  ⟨parse_llm_json_isOk, rfl, rfl, rfl, rfl, rfl, rfl⟩

end Pinokio
